import Mathlib

/-!
# Verification of the rust-etcd statistics module and its request dispatchers

Shallow embedding of the `etcd` Rust crate's statistics API (`src/stats.rs`)
together with the request-dispatch core described in the specification.
The crate's `client` and `error` modules are not part of the provided source
tree, so the single-endpoint requester, the failover dispatcher, the error
taxonomy and the `ClusterInfo` header extraction are modelled from the
specification; the statistics entry points (`leader_stats`, `self_stats`,
`store_stats`, `build_uri`) are translated directly from `src/stats.rs`.

Network effects are made explicit: the embedding is parametric in the transport
(`request : String → Except Error (Response T)`) and the URI parse of the
`http` crate (`parseUri : String → Option String`), and each operation also
returns the trace of URIs it actually requested, so that claims of the form
"no other endpoint is contacted" become statements about that trace.
-/

namespace Etcd

/-- Modelled from the spec: the structured etcd API error payload
(`code`, `message`, optional cause) decoded from a non-2xx response body
(the crate's `error` module is not in the provided source tree). -/
structure ApiError where
  errorCode : Nat
  message : String
  cause : Option String
  deriving Repr, DecidableEq

/-- Modelled from the spec: the closed error taxonomy of the crate's `error`
module (not in the provided source tree): `Transport` (connection-level
failure), `Api` (non-2xx with a decodable store error payload), `Decode`
(schema mismatch), `InvalidUri` (malformed endpoint/path, detected before any
network I/O). -/
inductive Error where
  | transport : String → Error
  | api : ApiError → Error
  | decode : String → Error
  | invalidUri : String → Error
  deriving Repr, DecidableEq

/-- `true` exactly on the `Api` and `Decode` error kinds. -/
def Error.isApiOrDecode : Error → Bool
  | .api _ => true
  | .decode _ => true
  | _ => false

/-- Modelled from the spec: `ClusterInfo` metadata extracted from response
headers by the crate's `client` module (not in the provided source tree):
the cluster-wide index and raft term / committed-index counters, each optional. -/
structure ClusterInfo where
  etcdIndex : Option Nat
  raftIndex : Option Nat
  raftTerm : Option Nat
  deriving Repr, DecidableEq

/-- Modelled from the spec: the response envelope pairing the decoded payload
with the cluster metadata (`Response` in the crate's `client` module, not in
the provided source tree). -/
structure Response (T : Type) where
  data : T
  clusterInfo : ClusterInfo
  deriving Repr, DecidableEq

/-- Looks a header up by name in a response header list (first match wins). -/
def headerValue (headers : List (String × String)) (name : String) : Option String :=
  (headers.find? (fun p => p.1 == name)).map Prod.snd

/-- Modelled from the spec: each well-known header is parsed as an unsigned
integer when present (Rust's `u64` string parse: a non-empty string of
decimal digits). -/
def parseUnsigned (s : String) : Option Nat :=
  if s.data ≠ [] ∧ s.data.all (fun c => c.isDigit) then
    some (s.data.foldl (fun n c => n * 10 + (c.toNat - '0'.toNat)) 0)
  else
    none

/-- Modelled from the spec: header-to-metadata extraction of the crate's
`client` module (not in the provided source tree). Each field is populated
from its well-known header when present and parseable as an unsigned integer,
and is absent otherwise; extraction is total and never fails. -/
def clusterInfoFromHeaders (headers : List (String × String)) : ClusterInfo :=
  { etcdIndex := (headerValue headers "X-Etcd-Index").bind parseUnsigned
    raftIndex := (headerValue headers "X-Raft-Index").bind parseUnsigned
    raftTerm := (headerValue headers "X-Raft-Term").bind parseUnsigned }

/-- The outcome of one transport-level exchange: either a connection-level
failure, or an HTTP response with status, headers and a raw body of type `B`. -/
inductive HttpOutcome (B : Type) where
  | failure : String → HttpOutcome B
  | response : Nat → List (String × String) → B → HttpOutcome B

/-- Modelled from the spec: the single-endpoint requester of the crate's
`client` module (not in the provided source tree). Given the JSON decoders for
the payload and for the store error schema, it classifies one transport
outcome: transport failure → `Error.transport`; non-2xx status → `Error.api`
when the body decodes as a store error, else `Error.decode`; 2xx status →
an envelope when the body decodes, else `Error.decode`. -/
def singleRequest {B T : Type} (decodeData : B → Option T)
    (decodeApiError : B → Option ApiError) :
    HttpOutcome B → Except Error (Response T)
  | .failure msg => .error (.transport msg)
  | .response status headers body =>
    if 200 ≤ status ∧ status < 300 then
      match decodeData body with
      | some d => .ok ⟨d, clusterInfoFromHeaders headers⟩
      | none => .error (.decode "invalid schema")
    else
      match decodeApiError body with
      | some e => .error (.api e)
      | none => .error (.decode "invalid error schema")

/-- Modelled from the spec: the failover dispatcher of the crate's `client`
module (not in the provided source tree). Endpoints are tried strictly in
order; the first success short-circuits; a `Transport` error moves on to the
next endpoint; any other error is returned immediately; when every endpoint
fails with `Transport`, the last such error is returned. The first component
of the result is the list of endpoints actually attempted, in order. -/
def dispatchFailover {E R : Type} (attempt : E → Except Error R) :
    List E → List E × Except Error R
  | [] => ([], .error (.transport "no endpoints"))
  | e :: rest =>
    match attempt e with
    | .ok r => ([e], .ok r)
    | .error (.transport msg) =>
      if rest.isEmpty then ([e], .error (.transport msg))
      else
        let t := dispatchFailover attempt rest
        (e :: t.1, t.2)
    | .error err => ([e], .error err)

/-- The client model: the configured endpoint list (ordered, non-empty, fixed
at construction), the URI parse of the `http` crate, and the transport-level
request primitive, both abstract parameters of the embedding. -/
structure ClientModel (T : Type) where
  endpoints : List String
  nonempty : endpoints ≠ []
  parseUri : String → Option String
  request : String → Except Error (Response T)

/-- `build_uri` from `src/stats.rs`: concatenates endpoint and path and parses
the result as a URI, returning the offending string on parse failure. -/
def build_uri (parseUri : String → Option String) (endpoint path : String) :
    Except String String :=
  match parseUri (endpoint ++ path) with
  | some uri => .ok uri
  | none => .error (endpoint ++ path)

/-- `leader_stats` from `src/stats.rs`: builds the URI from the first
configured endpoint only and performs a single request. The first component
is the trace of URIs actually requested. -/
def leader_stats {T : Type} (c : ClientModel T) :
    List String × Except Error (Response T) :=
  match build_uri c.parseUri (c.endpoints.head c.nonempty) "v2/stats/leader" with
  | .error s => ([], .error (.invalidUri s))
  | .ok uri => ([uri], c.request uri)

/-- The per-endpoint closure of `self_stats` / `store_stats` in
`src/stats.rs`: build the URI for this endpoint (an `InvalidUri` error slot if
it does not parse, with no request issued), otherwise request it. The first
component is the trace of URIs requested for this endpoint. -/
def statsStepTrace {T : Type} (c : ClientModel T) (path endpoint : String) :
    List String × Except Error (Response T) :=
  match build_uri c.parseUri endpoint path with
  | .error s => ([], .error (.invalidUri s))
  | .ok uri => ([uri], c.request uri)

/-- The result slot produced for one endpoint by `self_stats` / `store_stats`. -/
def statsStep {T : Type} (c : ClientModel T) (path endpoint : String) :
    Except Error (Response T) :=
  (statsStepTrace c path endpoint).2

/-- The per-endpoint tasks of `self_stats` / `store_stats`
(`stream::iter(endpoints).map(closure)` in `src/stats.rs`), in endpoint order. -/
def statsTasks {T : Type} (c : ClientModel T) (path : String) :
    List (Except Error (Response T)) :=
  c.endpoints.map (statsStep c path)

/-- Removes the earliest-completing task (smallest completion time, earliest
position among ties) from a list of in-flight tasks, returning it together
with the remaining tasks; `none` when nothing is in flight. -/
def popMin {A : Type} : List (Nat × A) → Option ((Nat × A) × List (Nat × A))
  | [] => none
  | x :: xs =>
    match popMin xs with
    | none => some (x, [])
    | some (y, ys) => if x.1 ≤ y.1 then some (x, xs) else some (y, x :: ys)

/-- Admits pending tasks into the in-flight set up to the concurrency limit
`n`, in input order: returns the remaining pending tasks and the new
in-flight set. -/
def fill {A : Type} (n : Nat) (pending inFlight : List (Nat × A)) :
    List (Nat × A) × List (Nat × A) :=
  (pending.drop (n - inFlight.length),
   inFlight ++ pending.take (n - inFlight.length))

/-- Modelled from the spec: the operational model of
`futures::stream::buffer_unordered(n)` (library code external to this
repository). Each step admits pending tasks up to the limit `n`, then yields
the in-flight task that completes earliest. Returns the yielded tasks in yield
order together with the trace of in-flight set sizes observed at each step
(after admission, before the yield). `fuel` bounds the number of steps;
`tasks.length` steps suffice since each step yields exactly one task. -/
def runBU {A : Type} : Nat → Nat → List (Nat × A) → List (Nat × A) →
    List (Nat × A) × List Nat
  | 0, _, _, _ => ([], [])
  | fuel + 1, n, pending, inFlight =>
    let pf := fill n pending inFlight
    match popMin pf.2 with
    | none => ([], [])
    | some (x, rest) =>
      let r := runBU fuel n pf.1 rest
      (x :: r.1, pf.2.length :: r.2)

/-- Modelled from the spec: the sequence of results yielded by
`buffer_unordered(n)` over `tasks`, each task paired with its completion time. -/
def bufferUnordered {A : Type} (n : Nat) (tasks : List (Nat × A)) : List A :=
  ((runBU tasks.length n tasks []).1).map Prod.snd

/-- The common fan-out shape of `self_stats` and `store_stats` in
`src/stats.rs`: `stream::iter(endpoints).map(closure).buffer_unordered(endpoints.len())`,
consumed to completion under the completion-time schedule `times` (one
completion time per endpoint, chosen by the environment). -/
def statsFanOut {T : Type} (c : ClientModel T) (path : String) (times : List Nat) :
    List (Except Error (Response T)) :=
  bufferUnordered c.endpoints.length (times.zip (statsTasks c path))

/-- `self_stats` from `src/stats.rs`: the fan-out over every configured
endpoint at path `v2/stats/self`. -/
def self_stats {T : Type} (c : ClientModel T) (times : List Nat) :
    List (Except Error (Response T)) :=
  statsFanOut c "v2/stats/self" times

/-- `store_stats` from `src/stats.rs`: the fan-out over every configured
endpoint at path `v2/stats/store`. -/
def store_stats {T : Type} (c : ClientModel T) (times : List Nat) :
    List (Except Error (Response T)) :=
  statsFanOut c "v2/stats/store" times

/-- A concrete two-endpoint client whose URI parse accepts everything and
whose transport fails every request with a `Transport` error. -/
def sampleClient : ClientModel Unit :=
  { endpoints := ["http://a/", "http://b/"]
    nonempty := by simp
    parseUri := fun s => some s
    request := fun _ => .error (.transport "down") }

/-- A concrete two-endpoint client whose second endpoint produces a string
that the URI parse rejects, while every other URI is accepted and served. -/
def sampleClientBadUri : ClientModel Unit :=
  { endpoints := ["http://a/", "::"]
    nonempty := by simp
    parseUri := fun s => if s = "::v2/stats/self" ∨ s = "::v2/stats/store" then none else some s
    request := fun _ => .ok ⟨(), ⟨none, none, none⟩⟩ }

/-! ## Helper lemmas about the `buffer_unordered` model -/

theorem popMin_eq_none {A : Type} {l : List (Nat × A)} :
    popMin l = none ↔ l = [] := by
  constructor
  · intro h
    cases l with
    | nil => rfl
    | cons x xs =>
      rw [popMin] at h
      rcases hxs : popMin xs with _ | ⟨y, ys⟩
      · simp only [hxs] at h
        simp at h
      · simp only [hxs] at h
        split at h <;> simp at h
  · intro h
    subst h
    rfl

theorem popMin_perm {A : Type} {l rest : List (Nat × A)} {x : Nat × A}
    (h : popMin l = some (x, rest)) : l.Perm (x :: rest) := by
  induction l generalizing x rest with
  | nil => simp [popMin] at h
  | cons a xs ih =>
    rw [popMin] at h
    rcases hxs : popMin xs with _ | ⟨y, ys⟩
    · simp only [hxs, Option.some.injEq, Prod.mk.injEq] at h
      obtain ⟨rfl, rfl⟩ := h
      have hnil : xs = [] := popMin_eq_none.mp hxs
      subst hnil
      exact List.Perm.refl _
    · simp only [hxs] at h
      split at h
      · simp only [Option.some.injEq, Prod.mk.injEq] at h
        obtain ⟨rfl, rfl⟩ := h
        exact List.Perm.refl _
      · simp only [Option.some.injEq, Prod.mk.injEq] at h
        obtain ⟨rfl, rfl⟩ := h
        have hp : xs.Perm (y :: ys) := ih hxs
        exact ((hp.cons a).trans (List.Perm.swap y a ys))

theorem popMin_min {A : Type} {l rest : List (Nat × A)} {x : Nat × A}
    (h : popMin l = some (x, rest)) : ∀ y ∈ rest, x.1 ≤ y.1 := by
  induction l generalizing x rest with
  | nil => simp [popMin] at h
  | cons a xs ih =>
    rw [popMin] at h
    rcases hxs : popMin xs with _ | ⟨y, ys⟩
    · simp only [hxs, Option.some.injEq, Prod.mk.injEq] at h
      obtain ⟨rfl, rfl⟩ := h
      intro z hz
      simp at hz
    · simp only [hxs] at h
      split at h
      · rename_i hle
        simp only [Option.some.injEq, Prod.mk.injEq] at h
        obtain ⟨rfl, rfl⟩ := h
        intro z hz
        have hmem : z = y ∨ z ∈ ys := by
          have := (popMin_perm hxs).mem_iff.mp hz
          simpa using this
        rcases hmem with rfl | hmem
        · exact hle
        · exact le_trans hle (ih hxs z hmem)
      · rename_i hle
        simp only [Option.some.injEq, Prod.mk.injEq] at h
        obtain ⟨rfl, rfl⟩ := h
        intro z hz
        rcases List.mem_cons.mp hz with rfl | hmem
        · exact le_of_not_le hle
        · exact ih hxs z hmem

theorem runBU_nil_succ {A : Type} (fuel n : Nat) (f : List (Nat × A)) :
    runBU (fuel + 1) n [] f =
      match popMin f with
      | none => ([], [])
      | some (x, rest) =>
        let r := runBU fuel n [] rest
        (x :: r.1, f.length :: r.2) := by
  simp [runBU, fill]

theorem runBU_nil_perm {A : Type} {fuel n : Nat} {f : List (Nat × A)}
    (h : f.length ≤ fuel) : (runBU fuel n [] f).1.Perm f := by
  induction fuel generalizing f with
  | zero =>
    have : f = [] := List.length_eq_zero.mp (Nat.le_zero.mp h)
    subst this
    simp [runBU]
  | succ fuel ih =>
    rw [runBU_nil_succ]
    rcases hp : popMin f with _ | ⟨x, rest⟩
    · have : f = [] := popMin_eq_none.mp hp
      subst this
      exact List.Perm.refl _
    · simp only
      have hperm : f.Perm (x :: rest) := popMin_perm hp
      have hrest : rest.length ≤ fuel := by
        have := hperm.length_eq
        simp at this
        omega
      exact (((ih hrest).cons x).trans hperm.symm)

theorem runBU_eq_runBU_nil {A : Type} {fuel n : Nat} {p f : List (Nat × A)}
    (h : p.length + f.length ≤ n) : runBU fuel n p f = runBU fuel n [] (f ++ p) := by
  cases fuel with
  | zero => rfl
  | succ fuel =>
    have htake : p.take (n - f.length) = p := List.take_of_length_le (by omega)
    have hdrop : p.drop (n - f.length) = [] := List.drop_eq_nil_of_le (by omega)
    simp [runBU, fill, htake, hdrop]

theorem runBU_nil_sorted {A : Type} {fuel n : Nat} {f : List (Nat × A)}
    (h : f.length ≤ fuel) :
    ((runBU fuel n [] f).1.map Prod.fst).Sorted (· ≤ ·) := by
  induction fuel generalizing f with
  | zero => simp [runBU]
  | succ fuel ih =>
    rw [runBU_nil_succ]
    rcases hp : popMin f with _ | ⟨x, rest⟩
    · simp
    · simp only [List.map_cons]
      have hperm : f.Perm (x :: rest) := popMin_perm hp
      have hrest : rest.length ≤ fuel := by
        have := hperm.length_eq
        simp at this
        omega
      rw [List.sorted_cons]
      refine ⟨?_, ih hrest⟩
      intro b hb
      obtain ⟨y, hy, rfl⟩ := List.mem_map.mp hb
      have hmem : y ∈ rest := (runBU_nil_perm hrest).mem_iff.mp hy
      exact popMin_min hp y hmem

theorem runBU_sizes_le {A : Type} {fuel n : Nat} {p f : List (Nat × A)}
    (h : f.length ≤ n) : ∀ s ∈ (runBU fuel n p f).2, s ≤ n := by
  induction fuel generalizing p f with
  | zero => simp [runBU]
  | succ fuel ih =>
    intro s hs
    simp only [runBU] at hs
    rcases hp : popMin (f ++ p.take (n - f.length)) with _ | ⟨x, rest⟩
    · simp [fill, hp] at hs
    · simp only [fill, hp] at hs
      have hlen : (f ++ p.take (n - f.length)).length ≤ n := by
        simp only [List.length_append, List.length_take]
        omega
      rcases List.mem_cons.mp hs with rfl | hmem
      · exact hlen
      · have hrest : rest.length ≤ n := by
          have := (popMin_perm hp).length_eq
          simp at this
          omega
        exact ih hrest s hmem

theorem bufferUnordered_perm {A : Type} {n : Nat} {tasks : List (Nat × A)}
    (h : tasks.length ≤ n) :
    (bufferUnordered n tasks).Perm (tasks.map Prod.snd) := by
  unfold bufferUnordered
  rw [runBU_eq_runBU_nil (by simpa using h)]
  simpa using (runBU_nil_perm (f := tasks) (n := n) (le_refl tasks.length)).map Prod.snd

theorem runBU_sizes_head {A : Type} {fuel n : Nat} {tasks : List (Nat × A)}
    (hlen : tasks.length = n) (hn : 0 < n) (hfuel : 0 < fuel) :
    (runBU fuel n tasks []).2.head? = some n := by
  cases fuel with
  | zero => omega
  | succ fuel =>
    have hfill : fill n tasks ([] : List (Nat × A)) = ([], tasks) := by
      unfold fill
      rw [List.length_nil, Nat.sub_zero, List.nil_append,
        List.drop_eq_nil_of_le (by omega), List.take_of_length_le (by omega)]
    rcases hp : popMin tasks with _ | ⟨x, rest⟩
    · have htasks : tasks = [] := popMin_eq_none.mp hp
      subst htasks
      simp at hlen
      omega
    · simp [runBU, hfill, hp, hlen]

theorem statsFanOut_perm {T : Type} (c : ClientModel T) (path : String)
    (times : List Nat) (h : times.length = c.endpoints.length) :
    (statsFanOut c path times).Perm (statsTasks c path) := by
  unfold statsFanOut
  have htasks : (statsTasks c path).length = c.endpoints.length := by
    simp [statsTasks]
  have hlen : (times.zip (statsTasks c path)).length ≤ c.endpoints.length := by
    rw [List.length_zip]
    omega
  have hperm := bufferUnordered_perm hlen
  have hmap : (times.zip (statsTasks c path)).map Prod.snd = statsTasks c path :=
    List.map_snd_zip _ _ (by omega)
  rwa [hmap] at hperm

/-! ## Helper lemmas about the failover dispatcher -/

theorem dispatchFailover_trace_take {E R : Type} (attempt : E → Except Error R) :
    ∀ es : List E, ∃ k, (dispatchFailover attempt es).1 = es.take k := by
  intro es
  induction es with
  | nil => exact ⟨0, rfl⟩
  | cons e rest ih =>
    cases hatt : attempt e with
    | ok r => exact ⟨1, by simp [dispatchFailover, hatt]⟩
    | error err =>
      cases err with
      | transport m =>
        rcases hr : rest.isEmpty with _ | _
        · obtain ⟨k, hk⟩ := ih
          refine ⟨k + 1, ?_⟩
          simp [dispatchFailover, hatt, hr, hk]
        · exact ⟨1, by simp [dispatchFailover, hatt, hr]⟩
      | api a => exact ⟨1, by simp [dispatchFailover, hatt]⟩
      | decode d => exact ⟨1, by simp [dispatchFailover, hatt]⟩
      | invalidUri u => exact ⟨1, by simp [dispatchFailover, hatt]⟩

theorem dispatchFailover_cons_transport {E R : Type} (attempt : E → Except Error R)
    (e : E) (rest : List E) (m : String)
    (hm : attempt e = .error (.transport m)) (hne : rest.isEmpty = false) :
    dispatchFailover attempt (e :: rest) =
      (e :: (dispatchFailover attempt rest).1, (dispatchFailover attempt rest).2) := by
  conv_lhs => rw [dispatchFailover]
  rw [hm]
  simp [hne]

/-! ## Claim theorems -/

/-- C2: for every non-empty endpoint list whose first endpoint's attempt
succeeds, the failover dispatcher returns that first endpoint's successful
result and attempts no other endpoint (the attempt trace is exactly the first
endpoint); moreover, for every endpoint list the attempt trace is a prefix of
the configured list, so endpoints are attempted strictly in configured order. -/
theorem failover_first_success_short_circuits {E R : Type}
    (attempt : E → Except Error R) (e : E) (rest : List E) (r : R)
    (h : attempt e = .ok r) :
    dispatchFailover attempt (e :: rest) = ([e], .ok r) ∧
    ∀ es : List E, ∃ k, (dispatchFailover attempt es).1 = es.take k := by
  refine ⟨?_, dispatchFailover_trace_take attempt⟩
  simp [dispatchFailover, h]

/-- Witness for C2 at a concrete input: with two endpoints and a first
endpoint that succeeds, only the first endpoint is attempted. -/
theorem failover_first_success_short_circuits_witness :
    dispatchFailover (fun _ : String => (Except.ok 7 : Except Error Nat))
      ["http://a/", "http://b/"] = (["http://a/"], .ok 7) :=
  (failover_first_success_short_circuits
    (fun _ : String => (Except.ok 7 : Except Error Nat))
    "http://a/" ["http://b/"] 7 rfl).1

/-- C3: when every endpoint's attempt fails with a `Transport` error, the
failover dispatcher attempts every endpoint in order (the trace is the whole
list) and returns the attempt result of the last endpoint tried, i.e. the
last transport error. -/
theorem failover_all_transport_returns_last {E R : Type}
    (attempt : E → Except Error R) (es : List E) (h : es ≠ [])
    (hall : ∀ e ∈ es, ∃ m, attempt e = .error (.transport m)) :
    dispatchFailover attempt es = (es, attempt (es.getLast h)) := by
  induction es with
  | nil => exact absurd rfl h
  | cons e rest ih =>
    obtain ⟨m, hm⟩ := hall e (List.mem_cons_self e rest)
    cases rest with
    | nil => simp [dispatchFailover, hm, List.getLast]
    | cons r rs =>
      have hrec := ih (by simp) (fun e' he' => hall e' (List.mem_cons_of_mem _ he'))
      have hstep := dispatchFailover_cons_transport attempt e (r :: rs) m hm (by simp)
      have hlast : (e :: r :: rs).getLast h = (r :: rs).getLast (by simp) :=
        List.getLast_cons _
      rw [hlast, hstep, hrec]

/-- Witness for C3 at a concrete input: two endpoints that both fail with
`Transport`; the dispatcher attempts both and returns the second's error. -/
theorem failover_all_transport_returns_last_witness :
    dispatchFailover
      (fun e : String => (Except.error (.transport e) : Except Error Nat))
      ["http://a/", "http://b/"]
      = (["http://a/", "http://b/"], .error (.transport "http://b/")) :=
  (failover_all_transport_returns_last
    (fun e : String => (Except.error (.transport e) : Except Error Nat))
    ["http://a/", "http://b/"] (by simp)
    (fun e _ => ⟨e, rfl⟩)).trans rfl

/-- C4: if the endpoints before position `k` all fail with `Transport` and
the attempt at position `k` fails with an `Api` or `Decode` error, the
failover dispatcher returns that error immediately: the attempt trace stops
at position `k` and no endpoint after it is ever attempted, so `Api` and
`Decode` failures are never retried. -/
theorem failover_api_decode_not_retried {E R : Type}
    (attempt : E → Except Error R) (pre : List E) (ek : E) (post : List E)
    (err : Error)
    (hpre : ∀ e ∈ pre, ∃ m, attempt e = .error (.transport m))
    (hk : attempt ek = .error err) (herr : err.isApiOrDecode = true) :
    dispatchFailover attempt (pre ++ ek :: post) = (pre ++ [ek], .error err) := by
  induction pre with
  | nil =>
    cases err with
    | transport m => simp [Error.isApiOrDecode] at herr
    | invalidUri u => simp [Error.isApiOrDecode] at herr
    | api a => simp [dispatchFailover, hk]
    | decode d => simp [dispatchFailover, hk]
  | cons p ps ih =>
    obtain ⟨m, hm⟩ := hpre p (List.mem_cons_self p ps)
    have hrec := ih (fun e he => hpre e (List.mem_cons_of_mem _ he))
    have hne : (ps ++ ek :: post).isEmpty = false := by
      cases ps <;> simp
    simp [dispatchFailover, hm, hne, hrec]

/-- Witness for C4 at a concrete input: the first endpoint fails with
`Transport`, the second with an `Api` error; the dispatcher stops at the
second endpoint, never attempting the third. -/
theorem failover_api_decode_not_retried_witness :
    dispatchFailover
      (fun e : String =>
        if e = "http://a/" then (Except.error (.transport "refused") : Except Error Nat)
        else .error (.api ⟨100, "Key not found", none⟩))
      (["http://a/"] ++ "http://b/" :: ["http://c/"])
      = (["http://a/"] ++ ["http://b/"], .error (.api ⟨100, "Key not found", none⟩)) :=
  failover_api_decode_not_retried _ ["http://a/"] "http://b/" ["http://c/"]
    (.api ⟨100, "Key not found", none⟩)
    (fun e he => ⟨"refused", by
      have : e = "http://a/" := by simpa using he
      simp [this]⟩)
    rfl rfl

/-- C5: when the endpoint/path combination of `leader_stats` does not parse
as a URI, the operation returns an `InvalidUri` error with an empty request
trace: no network request is issued, for every transport behavior, so
`InvalidUri` pre-empts every other error kind for the attempt. -/
theorem leader_stats_invalid_uri_no_request {T : Type} (c : ClientModel T)
    (h : c.parseUri (c.endpoints.head c.nonempty ++ "v2/stats/leader") = none) :
    leader_stats c =
      ([], .error (.invalidUri (c.endpoints.head c.nonempty ++ "v2/stats/leader"))) := by
  simp [leader_stats, build_uri, h]

/-- Witness for C5 at a concrete input: a client whose URI parse rejects the
combination; `leader_stats` issues no request and returns `InvalidUri`. -/
theorem leader_stats_invalid_uri_no_request_witness :
    leader_stats
      ⟨["http://x/"], by simp, fun _ => none,
        fun _ => (Except.error (.transport "unused") : Except Error (Response Unit))⟩
      = ([], .error (.invalidUri ("http://x/" ++ "v2/stats/leader"))) :=
  leader_stats_invalid_uri_no_request
    ⟨["http://x/"], by simp, fun _ => none,
      fun _ => (Except.error (.transport "unused") : Except Error (Response Unit))⟩
    rfl

/-- C1: for every client and every completion-time schedule with one
completion time per endpoint, the fully-consumed fan-out streams of
`self_stats` and `store_stats` contain exactly one item per configured
endpoint — `N` results over `N` endpoints, whatever the success/failure mix
(the transport behavior of the client is universally quantified, including
one where all `N` attempts fail). -/
theorem fanout_yields_one_result_per_endpoint {T : Type} (c : ClientModel T)
    (times : List Nat) (h : times.length = c.endpoints.length) :
    (self_stats c times).length = c.endpoints.length ∧
    (store_stats c times).length = c.endpoints.length := by
  constructor
  · have hp := (statsFanOut_perm c "v2/stats/self" times h).length_eq
    simpa [self_stats, statsTasks] using hp
  · have hp := (statsFanOut_perm c "v2/stats/store" times h).length_eq
    simpa [store_stats, statsTasks] using hp

/-- Witness for C1 at a concrete input: a two-endpoint client whose every
attempt fails with `Transport` still yields exactly two results from each
fan-out operation. -/
theorem fanout_yields_one_result_per_endpoint_witness :
    (self_stats sampleClient [0, 0]).length = sampleClient.endpoints.length ∧
    (store_stats sampleClient [0, 0]).length = sampleClient.endpoints.length :=
  fanout_yields_one_result_per_endpoint sampleClient [0, 0] rfl

/-- C6: a `ClusterInfo` field is populated exactly when its well-known header
is present and its value parses as an unsigned integer (absent on a missing
header or a parse failure), and on a success status with a decodable body the
call succeeds with that `ClusterInfo` for every header list — header absence
or unparseability never fails the call. -/
theorem clusterinfo_header_extraction {B T : Type}
    (decodeData : B → Option T) (decodeApiError : B → Option ApiError)
    (status : Nat) (headers : List (String × String)) (body : B) (d : T)
    (hstatus : 200 ≤ status ∧ status < 300) (hdec : decodeData body = some d) :
    singleRequest decodeData decodeApiError (.response status headers body) =
      .ok ⟨d, clusterInfoFromHeaders headers⟩ ∧
    (∀ n, (clusterInfoFromHeaders headers).etcdIndex = some n ↔
      ∃ s, headerValue headers "X-Etcd-Index" = some s ∧ parseUnsigned s = some n) ∧
    (∀ n, (clusterInfoFromHeaders headers).raftIndex = some n ↔
      ∃ s, headerValue headers "X-Raft-Index" = some s ∧ parseUnsigned s = some n) ∧
    (∀ n, (clusterInfoFromHeaders headers).raftTerm = some n ↔
      ∃ s, headerValue headers "X-Raft-Term" = some s ∧ parseUnsigned s = some n) := by
  refine ⟨?_, ?_, ?_, ?_⟩
  · simp [singleRequest, hstatus, hdec]
  · intro n
    simp [clusterInfoFromHeaders, Option.bind_eq_some]
  · intro n
    simp [clusterInfoFromHeaders, Option.bind_eq_some]
  · intro n
    simp [clusterInfoFromHeaders, Option.bind_eq_some]

/-- Witness for C6 at a concrete input: status 200, body decoding to 42 and a
single `X-Etcd-Index: 7` header produce a successful envelope whose
`etcdIndex` is 7. -/
theorem clusterinfo_header_extraction_witness :
    singleRequest (fun s : String => parseUnsigned s) (fun _ => none)
      (.response 200 [("X-Etcd-Index", "7")] "42")
      = .ok ⟨42, clusterInfoFromHeaders [("X-Etcd-Index", "7")]⟩ ∧
    (clusterInfoFromHeaders [("X-Etcd-Index", "7")]).etcdIndex = some 7 :=
  ⟨(clusterinfo_header_extraction (fun s : String => parseUnsigned s) (fun _ => none)
      200 [("X-Etcd-Index", "7")] "42" 42 (by decide) (by decide)).1,
   ((clusterinfo_header_extraction (fun s : String => parseUnsigned s) (fun _ => none)
      200 [("X-Etcd-Index", "7")] "42" 42 (by decide) (by decide)).2.1 7).mpr
     ⟨"7", rfl, by decide⟩⟩

/-- C7: in the fan-out statistics operations every per-endpoint outcome,
success or failure, is surfaced unrecovered as one slot of the output stream
(the consumed stream is a permutation of the per-endpoint results), and each
endpoint's outcome is independent: it depends only on that endpoint's own URI
and request, so changing the transport behavior at every other endpoint
leaves its slot unchanged. -/
theorem fanout_outcomes_independent_and_surfaced {T : Type} (c : ClientModel T)
    (times : List Nat) (h : times.length = c.endpoints.length) :
    (self_stats c times).Perm (c.endpoints.map (statsStep c "v2/stats/self")) ∧
    (store_stats c times).Perm (c.endpoints.map (statsStep c "v2/stats/store")) ∧
    ∀ (c₂ : ClientModel T) (path endpoint : String),
      c.parseUri = c₂.parseUri →
      (∀ u, build_uri c.parseUri endpoint path = .ok u → c.request u = c₂.request u) →
      statsStep c path endpoint = statsStep c₂ path endpoint := by
  refine ⟨statsFanOut_perm c "v2/stats/self" times h,
          statsFanOut_perm c "v2/stats/store" times h, ?_⟩
  intro c₂ path endpoint hparse hreq
  unfold statsStep statsStepTrace
  rw [← hparse]
  cases hu : build_uri c.parseUri endpoint path with
  | error s => simp
  | ok u => simp [hreq u hu]

/-- Witness for C7 at a concrete input: the all-failing two-endpoint client's
consumed `self_stats` stream is a permutation of its per-endpoint results. -/
theorem fanout_outcomes_independent_and_surfaced_witness :
    (self_stats sampleClient [0, 0]).Perm
      (sampleClient.endpoints.map (statsStep sampleClient "v2/stats/self")) :=
  (fanout_outcomes_independent_and_surfaced sampleClient [0, 0] rfl).1

/-- C8: in the fan-out statistics operations the number of in-flight requests
is bounded by the number of configured endpoints at every step of the
consumption, reaches exactly that number at the first step (the configured
limit is the endpoint count, with no separate pool-sizing knob), and the
results are yielded in completion order (the completion times of the yielded
results are non-decreasing), not in endpoint order. -/
theorem fanout_concurrency_bound_and_completion_order {T : Type}
    (c : ClientModel T) (times : List Nat) (path : String)
    (hlen : times.length = c.endpoints.length) (hpos : 0 < c.endpoints.length) :
    (∀ s ∈ (runBU (times.zip (statsTasks c path)).length c.endpoints.length
        (times.zip (statsTasks c path)) []).2, s ≤ c.endpoints.length) ∧
    (runBU (times.zip (statsTasks c path)).length c.endpoints.length
        (times.zip (statsTasks c path)) []).2.head? = some c.endpoints.length ∧
    ((runBU (times.zip (statsTasks c path)).length c.endpoints.length
        (times.zip (statsTasks c path)) []).1.map Prod.fst).Sorted (· ≤ ·) ∧
    statsFanOut c path times =
      ((runBU (times.zip (statsTasks c path)).length c.endpoints.length
        (times.zip (statsTasks c path)) []).1).map Prod.snd := by
  have htasks : (statsTasks c path).length = c.endpoints.length := by
    simp [statsTasks]
  have hzip : (times.zip (statsTasks c path)).length = c.endpoints.length := by
    rw [List.length_zip]
    omega
  refine ⟨runBU_sizes_le (by simp), runBU_sizes_head hzip hpos (by omega), ?_, rfl⟩
  rw [runBU_eq_runBU_nil (by simp [hzip])]
  simp only [List.nil_append]
  exact runBU_nil_sorted (le_of_eq rfl)

/-- Witness for C8 at a concrete input: the two-endpoint client's fan-out run
admits both requests at once — the first observed in-flight set size is 2,
the configured endpoint count. -/
theorem fanout_concurrency_bound_and_completion_order_witness :
    (runBU ([5, 3].zip (statsTasks sampleClient "v2/stats/self")).length
        sampleClient.endpoints.length
        ([5, 3].zip (statsTasks sampleClient "v2/stats/self")) []).2.head?
      = some sampleClient.endpoints.length :=
  (fanout_concurrency_bound_and_completion_order sampleClient [5, 3]
    "v2/stats/self" rfl (by decide)).2.1

/-- C9: `leader_stats` builds its URI from the first configured endpoint only
and performs at most one request: for every client with more than one
endpoint, every URI in its request trace is the one built from the first
endpoint (so no other endpoint is ever contacted, whatever the transport
outcome), and when that URI parses the trace is exactly that one request. -/
theorem leader_stats_first_endpoint_only {T : Type} (c : ClientModel T)
    (_h : 1 < c.endpoints.length) :
    (leader_stats c).1.length ≤ 1 ∧
    (∀ u ∈ (leader_stats c).1,
      build_uri c.parseUri (c.endpoints.head c.nonempty) "v2/stats/leader" = .ok u) ∧
    (∀ u, build_uri c.parseUri (c.endpoints.head c.nonempty) "v2/stats/leader" = .ok u →
      (leader_stats c).1 = [u]) := by
  cases hu : build_uri c.parseUri (c.endpoints.head c.nonempty) "v2/stats/leader" with
  | error s => simp [leader_stats, hu]
  | ok u => simp [leader_stats, hu]

/-- Witness for C9 at a concrete input: the two-endpoint client's
`leader_stats` request trace is exactly the URI built from the first
endpoint. -/
theorem leader_stats_first_endpoint_only_witness :
    (leader_stats sampleClient).1 = ["http://a/v2/stats/leader"] :=
  (leader_stats_first_endpoint_only sampleClient (by decide)).2.2
    "http://a/v2/stats/leader" rfl

/-- C10: in the fan-out statistics operations, an endpoint whose endpoint/path
combination fails to parse contributes an `InvalidUri` error slot produced
with no network request for that endpoint, while the stream still contains
exactly one item per endpoint and every endpoint's own result slot, and
`self_stats` / `store_stats` are exactly this fan-out at their respective
paths. -/
theorem fanout_invalid_uri_slot {T : Type} (c : ClientModel T)
    (times : List Nat) (endpoint path : String)
    (hlen : times.length = c.endpoints.length)
    (hmem : endpoint ∈ c.endpoints)
    (hbad : c.parseUri (endpoint ++ path) = none) :
    statsStepTrace c path endpoint = ([], .error (.invalidUri (endpoint ++ path))) ∧
    .error (.invalidUri (endpoint ++ path)) ∈ statsFanOut c path times ∧
    (statsFanOut c path times).length = c.endpoints.length ∧
    (∀ e ∈ c.endpoints, statsStep c path e ∈ statsFanOut c path times) ∧
    self_stats c times = statsFanOut c "v2/stats/self" times ∧
    store_stats c times = statsFanOut c "v2/stats/store" times := by
  have hstep : statsStepTrace c path endpoint =
      ([], .error (.invalidUri (endpoint ++ path))) := by
    simp [statsStepTrace, build_uri, hbad]
  have hperm := statsFanOut_perm c path times hlen
  have hall : ∀ e ∈ c.endpoints, statsStep c path e ∈ statsFanOut c path times := by
    intro e he
    exact hperm.mem_iff.mpr (List.mem_map_of_mem (statsStep c path) he)
  refine ⟨hstep, ?_, ?_, hall, rfl, rfl⟩
  · have := hall endpoint hmem
    rwa [show statsStep c path endpoint = .error (.invalidUri (endpoint ++ path)) by
      simp [statsStep, hstep]] at this
  · have hp := hperm.length_eq
    simpa [statsTasks] using hp

/-- Witness for C10 at a concrete input: the client whose second endpoint
yields an unparseable URI still gets a two-item `self_stats` stream, with an
`InvalidUri` slot for that endpoint and no request issued for it. -/
theorem fanout_invalid_uri_slot_witness :
    statsStepTrace sampleClientBadUri "v2/stats/self" "::"
      = ([], .error (.invalidUri ("::" ++ "v2/stats/self"))) ∧
    (statsFanOut sampleClientBadUri "v2/stats/self" [0, 0]).length
      = sampleClientBadUri.endpoints.length :=
  ⟨(fanout_invalid_uri_slot sampleClientBadUri [0, 0] "::" "v2/stats/self"
      rfl (by simp [sampleClientBadUri]) rfl).1,
   (fanout_invalid_uri_slot sampleClientBadUri [0, 0] "::" "v2/stats/self"
      rfl (by simp [sampleClientBadUri]) rfl).2.2.1⟩

end Etcd
